import Mathlib

/-!
Verification of the quantitative indicator / investment-insight engine of the
Cupk_Vest dashboard against its natural-language specification.

The development shallowly embeds four components of the source:

* `Insight` — the pure computations of the `AnalysisInsights` component in
  `web_dashboard/src/api.js` (valuation status, growth derivation, cash-flow
  health, highlights and risks generation).  JavaScript numbers are modelled
  as exact rationals (`ℚ`); where the source relies on JavaScript truthiness
  (`!x` treating both `undefined` and `0` as false) the embedding makes that
  explicit via `Option ℚ` and `truthy`.  Arithmetic on possibly-missing
  values, including `NaN` and signed infinities produced by `undefined`
  arithmetic and division by zero, is modelled by the small domain `JSNum`.
* `Chart` — the indicator engine of `InteractiveStockChart.jsx`
  (`calculateMA`, `calculateSTD`, the volatility band and `processedData`),
  over `ℝ` because the source takes a square root.
* `Bus` — the `ChartEventBus` of `IndustryPeersTable.jsx`.  A JavaScript
  `Set` is modelled as an insertion-ordered list of slots
  (`List (Option H)`): `add` appends when the element is not present,
  `delete` empties the slot, and `Set.prototype.forEach` walks the slots by
  increasing index, seeing deletions and additions made during the walk —
  exactly the observable semantics of the source's `emit`.
-/

namespace Insight

/-- JavaScript truthiness of a possibly-missing number: `undefined` and `0`
are falsy, every other number is truthy (`NaN` does not arise for stored
fields in this embedding). -/
def truthy : Option ℚ → Bool
  | none => false
  | some v => decide (v ≠ 0)

/-- JavaScript comparison `x > c` where `x` may be `undefined`
(`undefined > c` is `false`). -/
def optGt (o : Option ℚ) (c : ℚ) : Bool :=
  match o with
  | none => false
  | some v => decide (v > c)

/-- JavaScript comparison `x < c` where `x` may be `undefined`
(`undefined < c` is `false`). -/
def optLt (o : Option ℚ) (c : ℚ) : Bool :=
  match o with
  | none => false
  | some v => decide (v < c)

/-- The `valuation` sub-record of a financial snapshot
(`data.valuation` in `api.js`); every numeric field is optional.
Colour tags carried alongside the status strings in the source are
presentational and omitted. -/
structure Valuation where
  price : Option ℚ := none
  pe_ttm : Option ℚ := none
  dividend_yield : Option ℚ := none
  dcf_margin_of_safety : Option ℚ := none
  ddm_gordon : Option ℚ := none
  ddm_two_stage : Option ℚ := none
deriving DecidableEq

/-- Embedding of `getValuationStatus` from `api.js` (lines 653–679).
`if (!currentPrice)` is JavaScript truthiness, so an absent *or zero* price
yields "无法判断".  The two DDM tests are guarded by the truthiness of
`ddm_gordon` / `ddm_two_stage` (absent or zero skips the test), and each
signal is an `if`/`else if` pair, so the overvalued test of a signal runs
only when its undervalued test failed. -/
def getValuationStatus (v : Valuation) : String :=
  if !truthy v.price then "无法判断"
  else
    let p := v.price.getD 0
    let u1 := optGt v.dcf_margin_of_safety 20
    let o1 := !u1 && optLt v.dcf_margin_of_safety (-20)
    let u2 := truthy v.ddm_gordon && decide (p < v.ddm_gordon.getD 0 * 0.8)
    let o2 := !u2 && (truthy v.ddm_gordon && decide (p > v.ddm_gordon.getD 0 * 1.2))
    let u3 := truthy v.ddm_two_stage && decide (p < v.ddm_two_stage.getD 0 * 0.8)
    let o3 := !u3 && (truthy v.ddm_two_stage && decide (p > v.ddm_two_stage.getD 0 * 1.2))
    let u := (cond u1 1 0) + (cond u2 1 0) + (cond u3 1 0)
    let o := (cond o1 1 0) + (cond o2 1 0) + (cond o3 1 0)
    if u ≥ 2 then "明显低估"
    else if u ≥ 1 then "相对低估"
    else if o ≥ 2 then "明显高估"
    else if o ≥ 1 then "相对高估"
    else "估值合理"

/-- Modelled from the claim's words (C1): status is "无法判断" exactly when
`price` is absent; otherwise three independent tests are tallied —
`dcf_margin_of_safety > 20` / `< -20`, and for each *present* DDM value `g`
(including a present zero) `price < g*0.8` / `price > g*1.2` — and the final
label follows the undervalued-before-overvalued chain. -/
def valuationStatusClaim (v : Valuation) : String :=
  match v.price with
  | none => "无法判断"
  | some p =>
    let u := (if optGt v.dcf_margin_of_safety 20 then 1 else 0)
      + (match v.ddm_gordon with
         | some g => if p < g * 0.8 then 1 else 0
         | none => 0)
      + (match v.ddm_two_stage with
         | some g => if p < g * 0.8 then 1 else 0
         | none => 0)
    let o := (if optLt v.dcf_margin_of_safety (-20) then 1 else 0)
      + (match v.ddm_gordon with
         | some g => if p > g * 1.2 then 1 else 0
         | none => 0)
      + (match v.ddm_two_stage with
         | some g => if p > g * 1.2 then 1 else 0
         | none => 0)
    if u ≥ 2 then "明显低估"
    else if u ≥ 1 then "相对低估"
    else if o ≥ 2 then "明显高估"
    else if o ≥ 1 then "相对高估"
    else "估值合理"

/-- Modelled from the amended claim's words (C1): like `valuationStatusClaim`
but a price that is absent *or zero* yields "无法判断", each DDM test
requires a present *nonzero* value, and within each signal the overvalued
test is applied only when the undervalued test of that signal fails. -/
def valuationStatusAmended (v : Valuation) : String :=
  match v.price with
  | none => "无法判断"
  | some p =>
    if p = 0 then "无法判断"
    else
      let u1 := optGt v.dcf_margin_of_safety 20
      let o1 := !u1 && optLt v.dcf_margin_of_safety (-20)
      let u2 := match v.ddm_gordon with
        | some g => decide (g ≠ 0) && decide (p < g * 0.8)
        | none => false
      let o2 := !u2 && (match v.ddm_gordon with
        | some g => decide (g ≠ 0) && decide (p > g * 1.2)
        | none => false)
      let u3 := match v.ddm_two_stage with
        | some g => decide (g ≠ 0) && decide (p < g * 0.8)
        | none => false
      let o3 := !u3 && (match v.ddm_two_stage with
        | some g => decide (g ≠ 0) && decide (p > g * 1.2)
        | none => false)
      let u := (cond u1 1 0) + (cond u2 1 0) + (cond u3 1 0)
      let o := (cond o1 1 0) + (cond o2 1 0) + (cond o3 1 0)
      if u ≥ 2 then "明显低估"
      else if u ≥ 1 then "相对低估"
      else if o ≥ 2 then "明显高估"
      else if o ≥ 1 then "相对高估"
      else "估值合理"

/-- Embedding of `getCashFlowHealth` from `api.js` (lines 697–707).
`if (!cfo || !netProfit)` is JavaScript truthiness: an absent *or zero*
input yields "数据不足". -/
def getCashFlowHealth (cfo netProfit : Option ℚ) : String :=
  if !truthy cfo || !truthy netProfit then "数据不足"
  else
    let ratio := cfo.getD 0 / netProfit.getD 0
    if ratio > 1.2 then "优秀"
    else if ratio > 0.8 then "良好"
    else if ratio > 0.5 then "一般"
    else "较差"

/-- Modelled from the claim's words (C9): "数据不足" exactly when one of the
two inputs is *missing*; otherwise the ratio thresholds apply, so a present
zero is classified, not conflated with absence. -/
def cashFlowHealthClaim (cfo netProfit : Option ℚ) : String :=
  match cfo, netProfit with
  | some c, some n =>
    let ratio := c / n
    if ratio > 1.2 then "优秀"
    else if ratio > 0.8 then "良好"
    else if ratio > 0.5 then "一般"
    else "较差"
  | _, _ => "数据不足"

/-- Modelled from the amended claim's words (C9): both inputs must be present
*and nonzero*; otherwise "数据不足".  A present zero is treated exactly like
an absent input. -/
def cashFlowHealthAmended (cfo netProfit : Option ℚ) : String :=
  match cfo, netProfit with
  | some c, some n =>
    if c = 0 ∨ n = 0 then "数据不足"
    else
      let ratio := c / n
      if ratio > 1.2 then "优秀"
      else if ratio > 0.8 then "良好"
      else if ratio > 0.5 then "一般"
      else "较差"
  | _, _ => "数据不足"

/-- A JavaScript number as it flows through `calcGrowthRate`: an exact
rational, a signed infinity, or `NaN`.  (The float rounding of actual
JavaScript arithmetic is abstracted to exact rational arithmetic; signed
zero is not modelled.) -/
inductive JSNum where
  | num : ℚ → JSNum
  | posInf : JSNum
  | negInf : JSNum
  | nan : JSNum
deriving DecidableEq

/-- Lifting an optional field into arithmetic: an absent operand behaves as
`NaN` (JavaScript `undefined` coerces to `NaN`). -/
def jsOfOpt : Option ℚ → JSNum
  | some q => .num q
  | none => .nan

/-- JavaScript subtraction on `JSNum`. -/
def JSNum.sub : JSNum → JSNum → JSNum
  | nan, _ => nan
  | _, nan => nan
  | num a, num b => num (a - b)
  | num _, posInf => negInf
  | num _, negInf => posInf
  | posInf, num _ => posInf
  | negInf, num _ => negInf
  | posInf, negInf => posInf
  | negInf, posInf => negInf
  | posInf, posInf => nan
  | negInf, negInf => nan

/-- JavaScript division on `JSNum`; a nonzero numerator over zero gives a
signed infinity, `0/0` gives `NaN`. -/
def JSNum.div : JSNum → JSNum → JSNum
  | nan, _ => nan
  | _, nan => nan
  | num a, num b =>
    if b = 0 then (if a > 0 then posInf else if a < 0 then negInf else nan)
    else num (a / b)
  | num _, posInf => num 0
  | num _, negInf => num 0
  | posInf, num b => if b ≥ 0 then posInf else negInf
  | negInf, num b => if b ≥ 0 then negInf else posInf
  | posInf, _ => nan
  | negInf, _ => nan

/-- Multiplication of a `JSNum` by a rational constant (used for `* 100`). -/
def JSNum.mulc : JSNum → ℚ → JSNum
  | num a, c => num (a * c)
  | posInf, c => if c > 0 then posInf else if c < 0 then negInf else nan
  | negInf, c => if c > 0 then negInf else if c < 0 then posInf else nan
  | nan, _ => nan

/-- `Number.prototype.toFixed(1)` as later re-coerced to a number.
ECMAScript strips the sign first and, on ties, picks the larger `n` with
`n / 10` closest to the magnitude — so the rounding is to one decimal
place with ties *away from zero* (`(-1.25).toFixed(1)` is `"-1.3"`).
"Infinity"/"NaN" strings coerce back to the corresponding `JSNum`. -/
def JSNum.toFixed1 : JSNum → JSNum
  | num a =>
    if a < 0 then num (-(((⌊(-a) * 10 + 1 / 2⌋ : ℤ) : ℚ) / 10))
    else num (((⌊a * 10 + 1 / 2⌋ : ℤ) : ℚ) / 10)
  | x => x

/-- JavaScript comparison `x > c` for a `JSNum` against a plain number
(`NaN` compares false). -/
def JSNum.gtc : JSNum → ℚ → Bool
  | num a, c => decide (a > c)
  | posInf, _ => true
  | negInf, _ => false
  | nan, _ => false

/-- JavaScript comparison `x < c` for a `JSNum` against a plain number
(`NaN` compares false). -/
def JSNum.ltc : JSNum → ℚ → Bool
  | num a, c => decide (a < c)
  | posInf, _ => false
  | negInf, _ => true
  | nan, _ => false

/-- One point of `annual_trend`, oldest→newest; both numeric fields
optional. -/
structure AnnualPoint where
  revenue_yi : Option ℚ := none
  net_profit_yi : Option ℚ := none
deriving DecidableEq, Inhabited

/-- The record produced by `calcGrowthRate`: the two growth percentages as
the (string-typed in the source, numerically re-coerced downstream) results
of `toFixed(1)`. -/
structure GrowthRec where
  revenueGrowth : JSNum
  profitGrowth : JSNum
deriving DecidableEq

/-- Embedding of `calcGrowthRate` from `api.js` (lines 684–693).  The source
also guards `!latest || !prev`, which cannot fire on a list of points of
length ≥ 2; `!prev.revenue_yi` is JavaScript truthiness (absent or zero
revenue aborts).  The profit percentage is *not* guarded: an absent profit
propagates `NaN` and a zero previous profit produces a signed infinity. -/
def calcGrowthRate (annualTrend : List AnnualPoint) : Option GrowthRec :=
  if annualTrend.length < 2 then none
  else
    let latest := annualTrend.getD (annualTrend.length - 1) default
    let prev := annualTrend.getD (annualTrend.length - 2) default
    if !truthy prev.revenue_yi then none
    else some
      { revenueGrowth :=
          ((((jsOfOpt latest.revenue_yi).sub (jsOfOpt prev.revenue_yi)).div
            (jsOfOpt prev.revenue_yi)).mulc 100).toFixed1
        profitGrowth :=
          ((((jsOfOpt latest.net_profit_yi).sub (jsOfOpt prev.net_profit_yi)).div
            (jsOfOpt prev.net_profit_yi)).mulc 100).toFixed1 }

/-- The `summary` prop of `AnalysisInsights` (only the fields the highlight
and risk rules read). -/
structure SummaryData where
  roe : Option ℚ := none
  gross_margin : Option ℚ := none
  debt_ratio : Option ℚ := none
  net_margin : Option ℚ := none
deriving DecidableEq

/-- The inputs of `AnalysisInsights` that the highlight/risk generation
reads (the `data` prop's sub-records plus the `summary` prop). -/
structure Snapshot where
  summary : SummaryData := {}
  valuation : Valuation := {}
  net_profit_yi : Option ℚ := none
  latest_cfo_yi : Option ℚ := none
  momentum : Option String := none
  annual_trend : List AnnualPoint := []

/-- A highlight item: the fixed text fragment of the rule (the interpolated
numbers of the source's template strings are presentational and omitted)
and its priority. -/
structure HItem where
  text : String
  priority : Nat
deriving DecidableEq

/-- A risk item: fixed text fragment and level tag ("high"/"medium"). -/
structure RItem where
  text : String
  level : String
deriving DecidableEq

/-- The highlight rules of `generateHighlights` (`api.js` lines 712–764), in
source order, before sorting and truncation.  Each `if`/`else if` pair
contributes at most one item. -/
def highlightsList (s : Snapshot) : List HItem :=
  let growth := calcGrowthRate s.annual_trend
  let cfh := getCashFlowHealth s.latest_cfo_yi s.net_profit_yi
  (if optGt s.summary.roe 20 then [⟨"ROE 资本回报率卓越，属于优质资产", 1⟩]
   else if optGt s.summary.roe 15 then [⟨"ROE 盈利能力强劲", 2⟩] else [])
  ++ (if optGt s.summary.gross_margin 50 then [⟨"毛利率 护城河深厚，定价权强", 1⟩]
      else if optGt s.summary.gross_margin 30 then [⟨"毛利率 产品具有竞争力", 2⟩] else [])
  ++ (if optLt s.summary.debt_ratio 30 then [⟨"负债率 财务极其稳健，抗风险能力强", 1⟩]
      else if optLt s.summary.debt_ratio 50 then [⟨"负债率 财务结构健康", 2⟩] else [])
  ++ (match growth with
      | some g =>
        if g.revenueGrowth.gtc 20 then [⟨"营收同比增长 高速成长期", 1⟩]
        else if g.revenueGrowth.gtc 10 then [⟨"营收同比增长 稳健增长", 2⟩] else []
      | none => [])
  ++ (if s.momentum = some "持续增长型" then [⟨"增长趋势 持续增长型 业绩稳定向上", 1⟩]
      else if s.momentum = some "加速增长型" then [⟨"增长趋势 加速增长型 增长动能强劲", 1⟩] else [])
  ++ (if optGt s.valuation.dividend_yield 3 then [⟨"股息率 分红慷慨，适合长期持有", 2⟩] else [])
  ++ (if cfh = "优秀" then [⟨"现金流质量优秀 利润含金量高", 1⟩] else [])
  ++ (if truthy s.valuation.pe_ttm && optLt s.valuation.pe_ttm 15
      then [⟨"PE 估值较低，具有安全边际", 2⟩] else [])

/-- Embedding of `generateHighlights`: the rule items are stably sorted
ascending by priority (`Array.prototype.sort` is stable) and truncated to
the first 5. -/
def generateHighlights (s : Snapshot) : List HItem :=
  (List.insertionSort (fun a b => a.priority ≤ b.priority) (highlightsList s)).take 5

/-- The risk rules of `generateRisks` (`api.js` lines 769–817), in source
order, before truncation.  `summary.roe && summary.roe < 8` and
`summary.net_margin && summary.net_margin < 5` are truthiness-guarded, so a
present zero does not fire those rules. -/
def risksList (s : Snapshot) : List RItem :=
  let growth := calcGrowthRate s.annual_trend
  let cfh := getCashFlowHealth s.latest_cfo_yi s.net_profit_yi
  (if optGt s.valuation.pe_ttm 50 then [⟨"PE 估值偏高，需要业绩高增长支撑", "high"⟩]
   else if optGt s.valuation.pe_ttm 30 then [⟨"PE 估值较高，需警惕回调风险", "medium"⟩] else [])
  ++ (if optLt s.valuation.dcf_margin_of_safety (-30)
      then [⟨"DCF安全边际 内在价值低于市价", "high"⟩] else [])
  ++ (if truthy s.summary.roe && optLt s.summary.roe 8
      then [⟨"ROE 资本回报率偏低", "medium"⟩] else [])
  ++ (if optGt s.summary.debt_ratio 70 then [⟨"负债率 财务杠杆过高，警惕债务风险", "high"⟩]
      else if optGt s.summary.debt_ratio 60 then [⟨"负债率 负债水平偏高", "medium"⟩] else [])
  ++ (if truthy s.summary.net_margin && optLt s.summary.net_margin 5
      then [⟨"净利率 利润空间薄，抗风险能力弱", "high"⟩] else [])
  ++ (match growth with
      | some g =>
        if g.revenueGrowth.ltc 0 then [⟨"营收同比下滑 业务可能面临挑战", "high"⟩]
        else if g.profitGrowth.ltc 0 then [⟨"利润同比下滑 盈利能力下降", "medium"⟩] else []
      | none => [])
  ++ (if cfh = "较差" then [⟨"现金流质量较差 利润含金量不足，需警惕", "high"⟩] else [])
  ++ (if s.momentum = some "下滑型" ∨ s.momentum = some "衰退型"
      then [⟨"增长趋势 业绩拐点向下", "high"⟩] else [])

/-- Embedding of `generateRisks`: the rule items in evaluation order,
truncated to the first 5 (no sorting). -/
def generateRisks (s : Snapshot) : List RItem :=
  (risksList s).take 5

end Insight

namespace Chart

/-- Embedding of `calculateMA` from `InteractiveStockChart.jsx` (lines
18–25): `close.map((val, idx, arr) => ...)` — the body depends only on the
index and the whole array, so it is a map over the index range.  Below the
window the entry is `null`; otherwise the trailing `days` closes are summed
with `reduce((a, b) => a + b, 0)` and divided by `days`.  Generic over an
ordered field so the same definition serves exact (`ℚ`) evaluation and the
`ℝ`-valued band computation. -/
def calculateMA {α : Type} [LinearOrderedField α] (days : Nat) (close : List α) :
    List (Option α) :=
  (List.range close.length).map (fun idx =>
    if idx < days - 1 then none
    else some ((((close.drop (idx + 1 - days)).take days).foldl (· + ·) 0) / (days : α)))

/-- Embedding of `calculateSTD` from `InteractiveStockChart.jsx` (lines
28–36): below the window the entry is `null`; otherwise the sum of squared
deviations of the trailing `days` closes from `ma[idx]` is divided by
`days` (population variance) and square-rooted.  In the source `avg` is
`ma[idx]`, non-null whenever `idx ≥ days - 1` for the matching window; a
null `avg` would coerce to `0`, which `getD 0` mirrors. -/
noncomputable def calculateSTD (days : Nat) (ma : List (Option ℝ)) (close : List ℝ) :
    List (Option ℝ) :=
  (List.range close.length).map (fun idx =>
    if idx < days - 1 then none
    else
      let avg := (ma.getD idx none).getD 0
      some (Real.sqrt
        ((((close.drop (idx + 1 - days)).take days).foldl (fun a b => a + (b - avg) ^ 2) 0)
          / (days : ℝ))))

/-- Embedding of `bollUp` from `processedData` (line 45):
`ma20.map((v, i) => (v !== null && std20[i] !== null) ? v + 2 * std20[i] : null)`.
The two lists always have equal length in the source. -/
noncomputable def bollUpOf (ma std : List (Option ℝ)) : List (Option ℝ) :=
  (List.range ma.length).map (fun i =>
    match ma.getD i none, std.getD i none with
    | some v, some s => some (v + 2 * s)
    | _, _ => none)

/-- Embedding of `bollDn` from `processedData` (line 46), the lower band. -/
noncomputable def bollDnOf (ma std : List (Option ℝ)) : List (Option ℝ) :=
  (List.range ma.length).map (fun i =>
    match ma.getD i none, std.getD i none with
    | some v, some s => some (v - 2 * s)
    | _, _ => none)

/-- One OHLCV price bar (`open` is a Lean keyword, hence `openP`). -/
structure PriceBar where
  date : String
  openP : ℝ
  high : ℝ
  low : ℝ
  close : ℝ
  volume : ℝ

/-- The up-candle colour constant of the source. -/
def upColor : String := "#ef5350"

/-- The down-candle colour constant of the source. -/
def downColor : String := "#26a69a"

/-- The record built by `processedData` when the input is non-empty. -/
structure ProcessedData where
  dates : List String
  openP : List ℝ
  high : List ℝ
  low : List ℝ
  close : List ℝ
  volume : List ℝ
  ma5 : List (Option ℝ)
  ma20 : List (Option ℝ)
  ma60 : List (Option ℝ)
  ma120 : List (Option ℝ)
  bollUp : List (Option ℝ)
  bollDn : List (Option ℝ)
  volColors : List String

/-- Embedding of the `processedData` memo of `InteractiveStockChart.jsx`
(lines 7–62): `if (!data || data.length === 0) return null;` — an empty
input yields the absent result, not an empty series — otherwise the parallel
indicator arrays are computed. -/
noncomputable def processedData (data : List PriceBar) : Option ProcessedData :=
  if data.length = 0 then none
  else
    let close := data.map (·.close)
    let ma20 := calculateMA 20 close
    let std20 := calculateSTD 20 ma20 close
    some
      { dates := data.map (·.date)
        openP := data.map (·.openP)
        high := data.map (·.high)
        low := data.map (·.low)
        close := close
        volume := data.map (·.volume)
        ma5 := calculateMA 5 close
        ma20 := ma20
        ma60 := calculateMA 60 close
        ma120 := calculateMA 120 close
        bollUp := bollUpOf ma20 std20
        bollDn := bollDnOf ma20 std20
        volColors := (List.range close.length).map (fun i =>
          if i = 0 then upColor
          else if close.getD i 0 ≥ close.getD (i - 1) 0 then upColor else downColor) }

/-- The trailing-window arithmetic mean the claims speak about: the mean of
`close[i-(N-1)..i]`, written independently of `calculateMA`. -/
def windowMean {α : Type} [LinearOrderedField α] (N : Nat) (close : List α) (i : Nat) : α :=
  (∑ j ∈ Finset.range N, close.getD (i + 1 - N + j) 0) / (N : α)

/-- The population variance of the trailing 20 closes around the 20-period
mean, as the claims state it. -/
noncomputable def windowVar20 (close : List ℝ) (i : Nat) : ℝ :=
  (∑ j ∈ Finset.range 20, (close.getD (i - 19 + j) 0 - windowMean 20 close i) ^ 2) / 20

end Chart

namespace Bus

/-- Membership of a handler in the filled slots of a JavaScript `Set`
modelled as an insertion-ordered slot list (`none` marks a deleted slot). -/
def slotMem {H : Type} [DecidableEq H] (slots : List (Option H)) (h : H) : Bool :=
  slots.any (fun o => decide (o = some h))

/-- `Set.prototype.add`: appends a fresh entry when the value is not already
present, otherwise leaves the set unchanged (deduplication). -/
def addSlot {H : Type} [DecidableEq H] (slots : List (Option H)) (h : H) : List (Option H) :=
  if slotMem slots h then slots else slots ++ [some h]

/-- `Set.prototype.delete`: empties the value's slot (a later `add` of the
same value appends a new entry at the end). -/
def delSlot {H : Type} [DecidableEq H] (slots : List (Option H)) (h : H) : List (Option H) :=
  slots.map (fun o => if o = some h then none else o)

/-- The filled slots, in insertion order: the current members of the set. -/
def filled {H : Type} (slots : List (Option H)) : List H :=
  slots.filterMap id

/-- The bus registry: `this.listeners`, a map from event kind to a `Set` of
callbacks.  A kind with no entry and a kind mapped to an empty set are
observationally identical in the source, so both are the empty slot list. -/
def Registry (K H : Type) : Type := K → List (Option H)

/-- The empty registry (a freshly constructed `ChartEventBus`, and also the
result of `clear()`). -/
def emptyReg {K H : Type} : Registry K H := fun _ => []

/-- `ChartEventBus.on(eventType, callback)`: adds the callback to the kind's
set.  The returned unsubscribe token is `() => this.off(eventType, callback)`,
i.e. it is determined by the `(kind, handler)` pair alone. -/
def on' {K H : Type} [DecidableEq K] [DecidableEq H]
    (reg : Registry K H) (k : K) (h : H) : Registry K H :=
  fun k2 => if k2 = k then addSlot (reg k) h else reg k2

/-- `ChartEventBus.off(eventType, callback)`: deletes the callback from the
kind's set (a no-op when it is not there). -/
def off {K H : Type} [DecidableEq K] [DecidableEq H]
    (reg : Registry K H) (k : K) (h : H) : Registry K H :=
  fun k2 => if k2 = k then delSlot (reg k) h else reg k2

/-- What a handler does when invoked, for the purposes of these claims: it
returns normally, throws, subscribes a handler, or unsubscribes one.
(A real callback is arbitrary code; the claims only quantify over these
behaviours.) -/
inductive HAction (K H : Type) where
  | nop : HAction K H
  | throwErr : HAction K H
  | sub : K → H → HAction K H
  | unsub : K → H → HAction K H
deriving DecidableEq

/-- Invoking one handler: the registry it leaves behind, and whether it
threw (the source wraps each call in `try`/`catch`, so a throw is caught
and logged, never propagated). -/
def applyAct {K H : Type} [DecidableEq K] [DecidableEq H]
    (spec : H → HAction K H) (h : H) (reg : Registry K H) : Registry K H × Bool :=
  match spec h with
  | .nop => (reg, false)
  | .throwErr => (reg, true)
  | .sub k g => (on' reg k g, false)
  | .unsub k g => (off reg k g, false)

/-- The iteration of `ChartEventBus.emit`'s `forEach` over the kind's slot
list, by increasing slot index, on the *live* registry — entries emptied
before being reached are skipped and entries appended during the walk are
reached — accumulating the invocations (handler, payload) in order and the
handlers whose throw was caught.  `fuel` bounds the number of steps; every
theorem below supplies enough fuel for the walk to finish. -/
def emitAux {K H P : Type} [DecidableEq K] [DecidableEq H]
    (spec : H → HAction K H) (k : K) (p : P) (reg : Registry K H)
    (i : Nat) (fuel : Nat) (inv : List (H × P)) (errs : List H) :
    Registry K H × List (H × P) × List H :=
  match fuel with
  | 0 => (reg, inv, errs)
  | fuel + 1 =>
    let slots := reg k
    if hi : i < slots.length then
      match slots[i] with
      | none => emitAux spec k p reg (i + 1) fuel inv errs
      | some h =>
        let r := applyAct spec h reg
        emitAux spec k p r.1 (i + 1) fuel (inv ++ [(h, p)])
          (if r.2 then errs ++ [h] else errs)
    else (reg, inv, errs)

/-- `ChartEventBus.emit(eventType, payload)`: walk the kind's set from the
first slot.  Always returns (the `try`/`catch` confines handler throws);
a kind with no subscribers yields no invocations. -/
def emit {K H P : Type} [DecidableEq K] [DecidableEq H]
    (spec : H → HAction K H) (k : K) (p : P) (reg : Registry K H) (fuel : Nat) :
    Registry K H × List (H × P) × List H :=
  emitAux spec k p reg 0 fuel [] []

/-- A registry with the given slot list under one kind and nothing else. -/
def regOf {K H : Type} [DecidableEq K] (k : K) (slots : List (Option H)) : Registry K H :=
  fun k2 => if k2 = k then slots else []

/-- Concrete registry for the C5 scenario: handler `7` subscribed twice
under kind `0`. -/
def c5Reg : Registry Nat Nat := on' (on' emptyReg 0 7) 0 7

/-- Handler behaviour where every handler returns normally. -/
def nopSpec : Nat → HAction Nat Nat := fun _ => .nop

/-- Concrete registry for the C6 scenario: only handler `0` subscribed
under kind `0`. -/
def c6Reg : Registry Nat Nat := regOf 0 [some 0]

/-- Handler behaviour for the C6 scenario: handler `0` subscribes handler
`1` under kind `0`; everyone else returns normally. -/
def c6Spec : Nat → HAction Nat Nat := fun h => if h = 0 then .sub 0 1 else .nop

/-- Handler behaviour for the C6 witness, second scenario: handler `0`
unsubscribes handler `1` from kind `0`. -/
def c6UnsubSpec : Nat → HAction Nat Nat := fun h => if h = 0 then .unsub 0 1 else .nop

/-- Concrete registry for the C7 witness: handlers `3` (throwing) and `4`
registered under kind `0`, with an emptied slot between them. -/
def c7Reg : Registry Nat Nat := regOf 0 [some 3, none, some 4]

/-- Handler behaviour for the C7 witness: handler `3` throws, everyone else
returns normally. -/
def c7Spec : Nat → HAction Nat Nat := fun h => if h = 3 then .throwErr else .nop

end Bus

open Insight Chart Bus

/-- C1, counterexample.  A present price of `0` falsifies the claim: the
code's `if (!currentPrice)` treats it like an absent price and answers
"无法判断", while the claim's tally (no signal fires) would answer
"估值合理". -/
theorem c1_claim_counterexample :
    getValuationStatus { price := some 0 } = "无法判断" ∧
    valuationStatusClaim { price := some 0 } = "估值合理" := by
  exact ⟨rfl, rfl⟩

/-- C1, amended.  For every snapshot the valuation status equals the amended
claim's classification: absent *or zero* price is "无法判断"; otherwise the
three signals are tallied with each DDM test requiring a present nonzero
value and the overvalued test of a signal applying only when its
undervalued test fails, and the final label follows the
undervalued-before-overvalued chain. -/
theorem c1_amended_valuation_status (v : Valuation) :
    getValuationStatus v = valuationStatusAmended v := by
  rcases v with ⟨price, pe, dy, dcf, ddmg, ddm2⟩
  cases price with
  | none => rfl
  | some p =>
    by_cases hp : p = 0
    · subst hp
      simp [getValuationStatus, valuationStatusAmended, truthy]
    · cases ddmg <;> cases ddm2 <;>
        simp [getValuationStatus, valuationStatusAmended, truthy, hp]

/-- C9, counterexample.  A present-but-zero operating cash flow falsifies
the claim: the code's truthiness check answers "数据不足" although both
inputs are present, while the claim's ratio (`0/10 = 0`) would answer
"较差". -/
theorem c9_claim_counterexample :
    getCashFlowHealth (some 0) (some 10) = "数据不足" ∧
    cashFlowHealthClaim (some 0) (some 10) = "较差" := by
  refine ⟨rfl, ?_⟩
  norm_num [cashFlowHealthClaim]

/-- C9, amended.  For all inputs the cash-flow health equals the amended
claim's classification: both inputs must be present *and nonzero*, a
present zero being treated exactly like an absent input ("数据不足");
otherwise the `>1.2 / >0.8 / >0.5` ratio chain applies. -/
theorem c9_amended_cash_flow_health (cfo netProfit : Option ℚ) :
    getCashFlowHealth cfo netProfit = cashFlowHealthAmended cfo netProfit := by
  cases cfo with
  | none => rfl
  | some c =>
    cases netProfit with
    | none => simp [getCashFlowHealth, cashFlowHealthAmended, truthy]
    | some n =>
      by_cases hc : c = 0
      · simp [getCashFlowHealth, cashFlowHealthAmended, truthy, hc]
      · by_cases hn : n = 0 <;>
          simp [getCashFlowHealth, cashFlowHealthAmended, truthy, hc, hn]

/-- C8, counterexample.  With `annual_trend = [(revenue 3, profit 1),
(revenue 4, profit 2)]` the produced revenue growth is `33.3` (the
`toFixed(1)` rounding of `100/3`), not the exact percentage
`(4-3)/3*100 = 100/3` the claim states. -/
theorem c8_claim_counterexample :
    (calcGrowthRate [⟨some 3, some 1⟩, ⟨some 4, some 2⟩]).map GrowthRec.revenueGrowth
      = some (JSNum.num (333 / 10)) ∧ ((333 : ℚ) / 10 ≠ (4 - 3) / 3 * 100) := by
  constructor
  · norm_num [calcGrowthRate, truthy, jsOfOpt, JSNum.sub, JSNum.div, JSNum.mulc,
      JSNum.toFixed1]
  · norm_num

/-- C8, amended.  A growth record is produced iff `annual_trend` has at
least 2 points and the previous point's revenue is present and nonzero
(JavaScript truthiness); when produced, the revenue growth percentage is the
exact `(latest.revenue - prev.revenue)/prev.revenue*100` rounded to one
decimal place with ties away from zero (`toFixed(1)`), and the profit growth
percentage is the analogous rounded value whenever the previous point's net
profit is present and nonzero.  The failed-precondition output is `none`,
distinguishable from zero. -/
theorem c8_amended_growth (t : List AnnualPoint) :
    (calcGrowthRate t = none ↔
      t.length < 2 ∨ truthy (t.getD (t.length - 2) default).revenue_yi = false)
    ∧ (∀ g, calcGrowthRate t = some g →
        ∀ lr pr, (t.getD (t.length - 1) default).revenue_yi = some lr →
          (t.getD (t.length - 2) default).revenue_yi = some pr →
          g.revenueGrowth = .num (if (lr - pr) / pr * 100 < 0
            then -(((⌊(-((lr - pr) / pr * 100)) * 10 + 1 / 2⌋ : ℤ) : ℚ) / 10)
            else ((⌊(lr - pr) / pr * 100 * 10 + 1 / 2⌋ : ℤ) : ℚ) / 10))
    ∧ (∀ g, calcGrowthRate t = some g →
        ∀ lp pp, (t.getD (t.length - 1) default).net_profit_yi = some lp →
          (t.getD (t.length - 2) default).net_profit_yi = some pp → pp ≠ 0 →
          g.profitGrowth = .num (if (lp - pp) / pp * 100 < 0
            then -(((⌊(-((lp - pp) / pp * 100)) * 10 + 1 / 2⌋ : ℤ) : ℚ) / 10)
            else ((⌊(lp - pp) / pp * 100 * 10 + 1 / 2⌋ : ℤ) : ℚ) / 10)) := by
  refine ⟨?_, ?_, ?_⟩
  · by_cases hlen : t.length < 2
    · simp [calcGrowthRate, hlen]
    · by_cases htr : truthy (t.getD (t.length - 2) default).revenue_yi
      · simp [calcGrowthRate, List.getD, hlen, htr] at htr ⊢
      · simp only [Bool.not_eq_true] at htr
        simp [calcGrowthRate, List.getD, hlen, htr] at htr ⊢
  · intro g hg lr pr hlr hpr
    simp only [List.getD, List.get?_eq_getElem?] at hlr hpr
    by_cases hlen : t.length < 2
    · simp [calcGrowthRate, hlen] at hg
    · by_cases htr : truthy ((t[t.length - 2]?).getD default).revenue_yi
      · have hpr0 : pr ≠ 0 := by
          rw [hpr] at htr
          simpa [truthy] using htr
        simp only [calcGrowthRate, List.getD, List.get?_eq_getElem?, hlen, htr,
          Bool.not_true, Bool.false_eq_true, if_false, Option.some.injEq] at hg
        subst hg
        rw [hlr, hpr]
        simp only [jsOfOpt, JSNum.sub, JSNum.div, if_neg hpr0, JSNum.mulc, JSNum.toFixed1]
        rw [apply_ite JSNum.num]
      · simp [calcGrowthRate, List.getD, List.get?_eq_getElem?, hlen, htr] at hg
  · intro g hg lp pp hlp hpp hpp0
    simp only [List.getD, List.get?_eq_getElem?] at hlp hpp
    by_cases hlen : t.length < 2
    · simp [calcGrowthRate, hlen] at hg
    · by_cases htr : truthy ((t[t.length - 2]?).getD default).revenue_yi
      · simp only [calcGrowthRate, List.getD, List.get?_eq_getElem?, hlen, htr,
          Bool.not_true, Bool.false_eq_true, if_false, Option.some.injEq] at hg
        subst hg
        rw [hlp, hpp]
        simp only [jsOfOpt, JSNum.sub, JSNum.div, if_neg hpp0, JSNum.mulc, JSNum.toFixed1]
        rw [apply_ite JSNum.num]
      · simp [calcGrowthRate, List.getD, List.get?_eq_getElem?, hlen, htr] at hg

/-- C8, witness for `c8_amended_growth`: on a two-point trend the theorem
yields the produced profit growth `100` (exact `(2-1)/1*100`, a rounding
fixed-point), and on a trend whose exact revenue growth is `-1.25` (a
negative half-tie) it yields `-1.3` — ties rounded away from zero. -/
theorem c8_amended_growth_witness :
    (calcGrowthRate [⟨some 3, some 1⟩, ⟨some 4, some 2⟩]).map GrowthRec.profitGrowth
      = some (JSNum.num 100)
    ∧ (calcGrowthRate [⟨some 80, some 1⟩, ⟨some 79, some 2⟩]).map GrowthRec.revenueGrowth
      = some (JSNum.num (-(13 / 10))) := by
  constructor
  · have hsome : calcGrowthRate [⟨some 3, some 1⟩, ⟨some 4, some 2⟩]
        = some ⟨JSNum.num (333 / 10), JSNum.num 100⟩ := by
      norm_num [calcGrowthRate, truthy, jsOfOpt, JSNum.sub, JSNum.div, JSNum.mulc,
        JSNum.toFixed1]
    have h := (c8_amended_growth [⟨some 3, some 1⟩, ⟨some 4, some 2⟩]).2.2
      ⟨JSNum.num (333 / 10), JSNum.num 100⟩ hsome 2 1 (by norm_num [List.getD])
      (by norm_num [List.getD]) (by norm_num)
    rw [hsome]
    norm_num at h ⊢
  · have hsome : calcGrowthRate [⟨some 80, some 1⟩, ⟨some 79, some 2⟩]
        = some ⟨JSNum.num (-(13 / 10)), JSNum.num 100⟩ := by
      norm_num [calcGrowthRate, truthy, jsOfOpt, JSNum.sub, JSNum.div, JSNum.mulc,
        JSNum.toFixed1]
    have h := (c8_amended_growth [⟨some 80, some 1⟩, ⟨some 79, some 2⟩]).2.1
      ⟨JSNum.num (-(13 / 10)), JSNum.num 100⟩ hsome 79 80 (by norm_num [List.getD])
      (by norm_num [List.getD])
    rw [hsome]
    norm_num at h ⊢

/-- Inserting past a block of elements the inserted element does not
precede. -/
theorem orderedInsert_append_of_not {β : Type} (r : β → β → Prop) [DecidableRel r]
    (x : β) (as bs : List β) (h : ∀ y ∈ as, ¬ r x y) :
    List.orderedInsert r x (as ++ bs) = as ++ List.orderedInsert r x bs := by
  induction as with
  | nil => rfl
  | cons a as ih =>
    have ha : ¬ r x a := h a (List.mem_cons_self a as)
    simp only [List.cons_append, List.orderedInsert, if_neg ha, List.append_eq]
    rw [ih (fun y hy => h y (List.mem_cons_of_mem a hy))]

/-- Inserting in front of a block of elements the inserted element
precedes. -/
theorem orderedInsert_of_forall {β : Type} (r : β → β → Prop) [DecidableRel r]
    (x : β) (bs : List β) (h : ∀ y ∈ bs, r x y) :
    List.orderedInsert r x bs = x :: bs := by
  cases bs with
  | nil => rfl
  | cons b bs =>
    simp only [List.orderedInsert, if_pos (h b (List.mem_cons_self b bs))]

/-- The stable insertion sort of a list whose priorities all lie in `{1, 2}`
is exactly the priority-1 items in original order followed by the
priority-2 items in original order. -/
theorem insertionSort_filter_two_levels (l : List HItem)
    (h : ∀ x ∈ l, x.priority = 1 ∨ x.priority = 2) :
    List.insertionSort (fun a b => a.priority ≤ b.priority) l
      = l.filter (fun x => decide (x.priority = 1))
        ++ l.filter (fun x => decide (x.priority = 2)) := by
  induction l with
  | nil => rfl
  | cons x l ih =>
    have hx := h x (List.mem_cons_self x l)
    have hl : ∀ y ∈ l, y.priority = 1 ∨ y.priority = 2 :=
      fun y hy => h y (List.mem_cons_of_mem x hy)
    have hmem1 : ∀ y ∈ l.filter (fun x => decide (x.priority = 1)), y.priority = 1 := by
      intro y hy
      simpa using (List.of_mem_filter hy)
    have hmem2 : ∀ y ∈ l.filter (fun x => decide (x.priority = 2)), y.priority = 2 := by
      intro y hy
      simpa using (List.of_mem_filter hy)
    simp only [List.insertionSort, ih hl]
    rcases hx with h1 | h2
    · rw [orderedInsert_of_forall _ x _ ?_]
      · simp [List.filter_cons, h1]
      · intro y hy
        rcases List.mem_append.mp hy with hy1 | hy2
        · rw [h1, hmem1 y hy1]
        · rw [h1, hmem2 y hy2]
          omega
    · rw [orderedInsert_append_of_not _ x _ _ ?_, orderedInsert_of_forall _ x _ ?_]
      · simp [List.filter_cons, h2]
      · intro y hy
        rw [h2, hmem2 y hy]
      · intro y hy
        rw [h2, hmem1 y hy]
        omega

/-- Every highlight rule emits priority 1 or 2. -/
theorem highlightsList_priorities (s : Snapshot) :
    ∀ x ∈ highlightsList s, x.priority = 1 ∨ x.priority = 2 := by
  intro x hx
  simp only [highlightsList, List.mem_append] at hx
  rcases hx with ((((((hx | hx) | hx) | hx) | hx) | hx) | hx) | hx <;>
    (repeat' split at hx) <;> simp_all

/-- C10.  For every snapshot: the highlights are the stable
ascending-by-priority ordering of the rule items truncated to 5 (priority-1
items in evaluation order, then priority-2 items in evaluation order), so
the list is sorted and at most 5 long; the risks are exactly a prefix of
the rule items in evaluation order (never re-sorted), at most 5 long. -/
theorem c10_highlights_sorted_risks_ordered (s : Snapshot) :
    generateHighlights s
      = ((highlightsList s).filter (fun x => decide (x.priority = 1))
          ++ (highlightsList s).filter (fun x => decide (x.priority = 2))).take 5
    ∧ (generateHighlights s).length ≤ 5
    ∧ List.Sorted (fun a b : HItem => a.priority ≤ b.priority) (generateHighlights s)
    ∧ (generateRisks s).length ≤ 5
    ∧ ∃ rest, generateRisks s ++ rest = risksList s := by
  have hchar := insertionSort_filter_two_levels (highlightsList s) (highlightsList_priorities s)
  refine ⟨?_, ?_, ?_, ?_, ?_⟩
  · rw [generateHighlights, hchar]
  · rw [generateHighlights]
    simp [List.length_take]
  · rw [generateHighlights]
    letI : IsTotal HItem (fun a b => a.priority ≤ b.priority) :=
      ⟨fun a b => Nat.le_total a.priority b.priority⟩
    letI : IsTrans HItem (fun a b => a.priority ≤ b.priority) :=
      ⟨fun a b c hab hbc => Nat.le_trans hab hbc⟩
    exact List.Pairwise.sublist (List.take_sublist 5 _)
      (List.sorted_insertionSort (fun a b : HItem => a.priority ≤ b.priority)
        (highlightsList s))
  · rw [generateRisks]
    simp [List.length_take]
  · exact ⟨(risksList s).drop 5, List.take_append_drop 5 (risksList s)⟩

/-- A member's slot stays filled after `add`. -/
theorem slotMem_addSlot_self {H : Type} [DecidableEq H] (s : List (Option H)) (h : H) :
    slotMem (addSlot s h) h = true := by
  unfold addSlot
  split
  · assumption
  · simp [slotMem, List.any_append]

/-- `add` of a present member is a no-op. -/
theorem addSlot_eq_of_mem {H : Type} [DecidableEq H] {s : List (Option H)} {h : H}
    (hm : slotMem s h = true) : addSlot s h = s := by
  unfold addSlot
  rw [if_pos hm]

/-- `delete` is idempotent. -/
theorem delSlot_idem {H : Type} [DecidableEq H] (s : List (Option H)) (h : H) :
    delSlot (delSlot s h) h = delSlot s h := by
  unfold delSlot
  rw [List.map_map]
  congr 1
  funext o
  by_cases ho : o = some h <;> simp [ho]

/-- After `delete` the member is gone. -/
theorem slotMem_delSlot_self {H : Type} [DecidableEq H] (s : List (Option H)) (h : H) :
    slotMem (delSlot s h) h = false := by
  simp only [slotMem, delSlot, List.any_map, List.any_eq_false, Function.comp]
  intro o ho
  by_cases h' : o = some h <;> simp [h']

/-- C5, counterexample.  Subscribing handler `7` twice under kind `0` leaves
a single registration (the `Set` deduplicates), and after unsubscribing via
one of the two (identical) tokens a publish invokes nothing — the claim's
"other registration" does not exist. -/
theorem c5_claim_counterexample :
    c5Reg 0 = [some 7] ∧ (emit nopSpec 0 0 (off c5Reg 0 7) 5).2.1 = [] := by
  exact ⟨rfl, rfl⟩

/-- C5, amended.  Subscribing the same handler under the same kind a second
time is a no-op (the registration is deduplicated and both returned tokens
denote the same `(kind, handler)` pair); unsubscribing removes that single
registration, so the handler's slot is no longer filled; and unsubscribing
a second time with the same token is a no-op. -/
theorem c5_amended_dedup (K H : Type) [DecidableEq K] [DecidableEq H]
    (reg : Registry K H) (k : K) (h : H) :
    on' (on' reg k h) k h = on' reg k h
    ∧ off (off reg k h) k h = off reg k h
    ∧ slotMem ((off reg k h) k) h = false := by
  refine ⟨?_, ?_, ?_⟩
  · funext k2
    simp only [on']
    by_cases hk : k2 = k
    · simp [hk, addSlot_eq_of_mem (slotMem_addSlot_self _ _)]
    · simp [hk]
  · funext k2
    simp only [off]
    by_cases hk : k2 = k
    · simp [hk, delSlot_idem]
    · simp [hk]
  · simp only [off, if_pos rfl]
    exact slotMem_delSlot_self _ _

/-- Past the end of the slot list the walk stops, whatever fuel remains. -/
theorem emitAux_stop {K H P : Type} [DecidableEq K] [DecidableEq H]
    {spec : H → HAction K H} {k : K} {p : P} {reg : Registry K H}
    {i fuel : Nat} {inv : List (H × P)} {errs : List H}
    (hi : (reg k).length ≤ i) :
    emitAux spec k p reg i fuel inv errs = (reg, inv, errs) := by
  cases fuel with
  | zero => rfl
  | succ f =>
    simp only [emitAux]
    rw [dif_neg (Nat.not_lt.mpr hi)]

/-- C6, counterexample.  Before the publish only handler `0` is registered
under kind `0`; handler `0` subscribes handler `1` during the publish, and
handler `1` *is* invoked by that same publish (`Set.prototype.forEach`
visits entries appended during iteration). -/
theorem c6_claim_counterexample :
    filled (c6Reg 0) = [0] ∧ (emit c6Spec 0 0 c6Reg 10).2.1 = [(0, 0), (1, 0)] := by
  exact ⟨rfl, rfl⟩

/-- C6, amended.  Registry changes made from within a running handler take
effect *immediately* for the publish in progress: a handler subscribed
under the published kind by a running handler is appended after the current
position and invoked by the same publish, and a handler unsubscribed before
being reached is skipped. -/
theorem c6_amended_live_iteration {K H P : Type} [DecidableEq K] [DecidableEq H]
    (k : K) (a b : H) (p : P) (f : Nat) (spec : H → HAction K H) (hab : a ≠ b) :
    (spec a = .sub k b → spec b = .nop →
      (emit spec k p (regOf k [some a]) (f + 2)).2.1 = [(a, p), (b, p)])
    ∧ (spec a = .unsub k b →
      (emit spec k p (regOf k [some a, some b]) (f + 2)).2.1 = [(a, p)]) := by
  constructor
  · intro hsa hsb
    have hlen : ((on' (regOf k [some a]) k b) k).length ≤ 2 := by
      simp [on', regOf, addSlot, slotMem, hab]
    simp [emit, emitAux, regOf, on', applyAct, addSlot, slotMem, hsa, hsb, hab,
      emitAux_stop hlen]
  · intro hsa
    have hlen : ((off (regOf k [some a, some b]) k b) k).length ≤ 2 := by
      simp [off, regOf, delSlot]
    simp [emit, emitAux, regOf, off, applyAct, delSlot, slotMem, hsa,
      Ne.symm hab, emitAux_stop hlen]

/-- C6, witness for `c6_amended_live_iteration` at concrete handlers: the
subscribing scenario invokes both handlers, the unsubscribing scenario
skips the removed one. -/
theorem c6_amended_witness :
    (emit c6Spec 0 0 (regOf 0 [some 0]) 2).2.1 = [(0, 0), (1, 0)]
    ∧ (emit c6UnsubSpec 0 0 (regOf 0 [some 0, some 1]) 2).2.1 = [(0, 0)] := by
  exact ⟨(c6_amended_live_iteration 0 0 1 0 0 c6Spec (by decide)).1 rfl rfl,
    (c6_amended_live_iteration 0 0 1 0 0 c6UnsubSpec (by decide)).2 rfl⟩

/-- When no handler mutates the registry, the walk of `emit` visits exactly
the filled slots from position `i` on, in order, and leaves the registry
unchanged; the handlers whose throw was caught are those whose behaviour is
`throwErr`, in the same order. -/
theorem emitAux_readonly {K H P : Type} [DecidableEq K] [DecidableEq H]
    (spec : H → HAction K H) (k : K) (p : P) (reg : Registry K H)
    (hspec : ∀ h, spec h = .nop ∨ spec h = .throwErr) :
    ∀ fuel i inv errs, (reg k).length ≤ i + fuel →
      emitAux spec k p reg i fuel inv errs
        = (reg, inv ++ (filled ((reg k).drop i)).map (fun h => (h, p)),
            errs ++ (filled ((reg k).drop i)).filter
              (fun h => decide (spec h = .throwErr))) := by
  intro fuel
  induction fuel with
  | zero =>
    intro i inv errs hle
    have hdrop : (reg k).drop i = [] := List.drop_eq_nil_of_le (by omega)
    simp [emitAux, hdrop, filled]
  | succ f ih =>
    intro i inv errs hle
    by_cases hi : i < (reg k).length
    · have hdrop : (reg k).drop i = (reg k)[i] :: (reg k).drop (i + 1) :=
        List.drop_eq_getElem_cons hi
      simp only [emitAux]
      rw [dif_pos hi]
      cases hx : (reg k)[i] with
      | none =>
        rw [ih (i + 1) inv errs (by omega)]
        rw [hdrop, hx]
        simp [filled]
      | some h =>
        have hact : applyAct spec h reg
            = (reg, decide (spec h = HAction.throwErr)) := by
          rcases hspec h with hs | hs <;> simp [applyAct, hs]
        dsimp only
        rw [hact]
        rw [ih (i + 1) (inv ++ [(h, p)])
          (if decide (spec h = HAction.throwErr) then errs ++ [h] else errs) (by omega)]
        rw [hdrop, hx]
        rcases hspec h with hs | hs <;> simp [filled, hs, List.filter_cons]
    · have hdrop : (reg k).drop i = [] := List.drop_eq_nil_of_le (by omega)
      simp only [emitAux]
      rw [dif_neg hi]
      simp [hdrop, filled]

/-- C7.  For handlers that do not mutate the registry (they return normally
or throw), a publish invokes every currently-registered handler for the
kind, synchronously, in registration order, with the payload; a throwing
handler is caught and logged (it appears in the error log) and does not
prevent the remaining handlers from being invoked; the registry is
untouched; and a kind with zero subscribers yields no invocations and no
error — `emit` returns normally in every case, so nothing propagates to
the publisher. -/
theorem c7_publish_isolating (K H P : Type) [DecidableEq K] [DecidableEq H]
    (spec : H → HAction K H) (k : K) (p : P) (reg : Registry K H) (fuel : Nat)
    (hspec : ∀ h, spec h = .nop ∨ spec h = .throwErr)
    (hfuel : (reg k).length ≤ fuel) :
    emit spec k p reg fuel
      = (reg, (filled (reg k)).map (fun h => (h, p)),
          (filled (reg k)).filter (fun h => decide (spec h = .throwErr))) := by
  rw [emit, emitAux_readonly spec k p reg hspec fuel 0 [] [] (by omega)]
  simp

/-- C7, witness for `c7_publish_isolating`: kind `0` has handlers `3`
(which throws) and `4`; both are invoked in order with the payload, the
throw of `3` is caught and logged, and the registry is unchanged. -/
theorem c7_publish_witness :
    (emit c7Spec 0 0 c7Reg 5).2.1 = [(3, 0), (4, 0)]
    ∧ (emit c7Spec 0 0 c7Reg 5).2.2 = [3] := by
  have h := c7_publish_isolating Nat Nat Nat c7Spec 0 0 c7Reg 5
    (fun h => by by_cases h3 : h = 3 <;> simp [c7Spec, h3]) (by decide)
  exact ⟨by rw [h]; rfl, by rw [h]; rfl⟩

/-- Folding addition of `g`-images equals the sum of the mapped list. -/
theorem foldl_add_map_sum {α M : Type} [AddCommMonoid M] (g : α → M) :
    ∀ (xs : List α) (c : M), xs.foldl (fun acc b => acc + g b) c = c + (xs.map g).sum := by
  intro xs
  induction xs with
  | nil => intro c; simp
  | cons x xs ih =>
    intro c
    simp only [List.foldl_cons, List.map_cons, List.sum_cons, ih, add_assoc]

/-- The sum of `g` over a window `l[a..a+n)` as an indexed finite sum. -/
theorem slice_map_sum {α M : Type} [AddCommMonoid M] (g : α → M) (l : List α) (d : α) :
    ∀ (n a : Nat), a + n ≤ l.length →
      (((l.drop a).take n).map g).sum = ∑ j ∈ Finset.range n, g (l.getD (a + j) d) := by
  intro n
  induction n with
  | zero => intro a h; simp
  | succ n ih =>
    intro a h
    have h1 : n < (l.drop a).length := by
      rw [List.length_drop]
      omega
    rw [← List.take_concat_get' _ _ h1, List.map_append, List.sum_append,
      ih a (by omega), Finset.sum_range_succ]
    simp only [List.map_cons, List.map_nil, List.sum_cons, List.sum_nil, add_zero]
    congr 1
    rw [List.getD_eq_getElem l d (by omega : a + n < l.length)]
    exact congrArg g (@List.getElem_drop' _ l a n (by omega)).symm

/-- An entry of a map over an index range. -/
theorem getD_range_map {β : Type} {n : Nat} (f : Nat → β) {i : Nat} (d : β) (h : i < n) :
    ((List.range n).map f).getD i d = f i := by
  simp [List.getD, List.get?_eq_getElem?, List.getElem?_map, List.getElem?_range, h]

/-- `calculateMA` preserves the length of the input series. -/
theorem calculateMA_length {α : Type} [LinearOrderedField α] (days : Nat) (close : List α) :
    (calculateMA days close).length = close.length := by
  simp [calculateMA]

/-- Below the window, `calculateMA` yields `null`. -/
theorem calculateMA_getD_of_lt {α : Type} [LinearOrderedField α] {days i : Nat}
    (close : List α) (hi : i < close.length) (h : i < days - 1) :
    (calculateMA days close).getD i none = none := by
  rw [calculateMA, getD_range_map _ _ hi, if_pos h]

/-- From index `days - 1` on, `calculateMA` is the trailing-window mean. -/
theorem calculateMA_getD_of_ge {α : Type} [LinearOrderedField α] {days i : Nat}
    (close : List α) (hday : 1 ≤ days) (hi : i < close.length) (h : days - 1 ≤ i) :
    (calculateMA days close).getD i none = some (windowMean days close i) := by
  have hnot : ¬ i < days - 1 := by omega
  rw [calculateMA, getD_range_map _ _ hi, if_neg hnot]
  congr 1
  rw [windowMean]
  congr 1
  have hfold : ((close.drop (i + 1 - days)).take days).foldl (· + ·) (0 : α)
      = (((close.drop (i + 1 - days)).take days).map id).sum := by
    simpa using foldl_add_map_sum (id : α → α) ((close.drop (i + 1 - days)).take days) 0
  rw [hfold, slice_map_sum (id : α → α) close 0 days (i + 1 - days) (by omega)]
  simp

/-- C2.  For every close series over an ordered field and each of the four
configured windows `N ∈ {5, 20, 60, 120}`, the produced series has the
input's length, is `null` strictly below index `N - 1`, and from index
`N - 1` on equals the exact arithmetic mean of the trailing `N` closes. -/
theorem c2_moving_average {α : Type} [LinearOrderedField α] (close : List α) (N : Nat)
    (hN : N ∈ ([5, 20, 60, 120] : List Nat)) :
    (calculateMA N close).length = close.length
    ∧ ∀ i, i < close.length →
        ((i < N - 1 → (calculateMA N close).getD i none = none)
          ∧ (N - 1 ≤ i → (calculateMA N close).getD i none = some (windowMean N close i))) := by
  have hday : 1 ≤ N := by
    simp only [List.mem_cons, List.not_mem_nil, or_false] at hN
    rcases hN with h | h | h | h <;> omega
  refine ⟨calculateMA_length N close, fun i hi => ⟨fun h => ?_, fun h => ?_⟩⟩
  · exact calculateMA_getD_of_lt close hi h
  · exact calculateMA_getD_of_ge close hday hi h

/-- C2, witness for `c2_moving_average`: the 5-period mean of
`[1, 2, 3, 4, 5]` at the last index is `3`, and earlier entries are null. -/
theorem c2_moving_average_witness :
    (calculateMA 5 ([1, 2, 3, 4, 5] : List ℚ)).getD 4 none = some 3
    ∧ (calculateMA 5 ([1, 2, 3, 4, 5] : List ℚ)).getD 3 none = none := by
  have h := (c2_moving_average ([1, 2, 3, 4, 5] : List ℚ) 5 (by decide)).2
  constructor
  · rw [(h 4 (by decide)).2 (by decide)]
    norm_num [windowMean, Finset.sum_range_succ, List.getD]
  · exact (h 3 (by decide)).1 (by decide)

/-- The windowed sum of squared deviations as an indexed finite sum. -/
theorem foldl_sq_sum (m : ℝ) (l : List ℝ) (a n : Nat) (h : a + n ≤ l.length) :
    ((l.drop a).take n).foldl (fun acc b => acc + (b - m) ^ 2) 0
      = ∑ j ∈ Finset.range n, (l.getD (a + j) 0 - m) ^ 2 := by
  have h1 := foldl_add_map_sum (fun b : ℝ => (b - m) ^ 2) ((l.drop a).take n) 0
  have h2 := slice_map_sum (fun b : ℝ => (b - m) ^ 2) l 0 n a h
  simp only at h1
  rw [h1, h2, zero_add]

/-- From index 19 on, the 20-period `calculateSTD` against the 20-period
mean is the square root of the population variance of the window. -/
theorem calculateSTD20_getD (close : List ℝ) {i : Nat} (hi : i < close.length)
    (hge : 19 ≤ i) :
    (calculateSTD 20 (calculateMA 20 close) close).getD i none
      = some (Real.sqrt (windowVar20 close i)) := by
  have hnot : ¬ i < 20 - 1 := by omega
  have hma : (calculateMA 20 close).getD i none = some (windowMean 20 close i) :=
    calculateMA_getD_of_ge close (by norm_num) hi (by omega)
  rw [calculateSTD, getD_range_map _ _ hi, if_neg hnot, hma]
  simp only [Option.getD_some]
  rw [foldl_sq_sum (windowMean 20 close i) close (i + 1 - 20) 20 (by omega)]
  rw [windowVar20, show i + 1 - 20 = i - 19 from by omega]
  norm_num

/-- Below index 19 the 20-period mean is null. -/
theorem calculateMA20_getD_of_lt (close : List ℝ) {i : Nat} (hi : i < close.length)
    (hlt : i < 19) :
    (calculateMA 20 close).getD i none = none :=
  calculateMA_getD_of_lt close hi (by omega)

/-- C3.  For every close series: from index 19 on the band is
`ma20 ± 2 * sqrt(population variance of close[i-19..i] around ma20[i])`;
below index 19 (wherever `ma20` is null) both bands are null; and for
series shorter than 20 bars `ma20`, `bollUp` and `bollDn` are entirely
null. -/
theorem c3_bollinger_band (close : List ℝ) :
    (∀ i, i < close.length → 19 ≤ i →
      (bollUpOf (calculateMA 20 close) (calculateSTD 20 (calculateMA 20 close) close)).getD i none
          = some (windowMean 20 close i + 2 * Real.sqrt (windowVar20 close i))
        ∧ (bollDnOf (calculateMA 20 close) (calculateSTD 20 (calculateMA 20 close) close)).getD i none
          = some (windowMean 20 close i - 2 * Real.sqrt (windowVar20 close i)))
    ∧ (∀ i, i < close.length → i < 19 →
      (calculateMA 20 close).getD i none = none
        ∧ (bollUpOf (calculateMA 20 close) (calculateSTD 20 (calculateMA 20 close) close)).getD i none = none
        ∧ (bollDnOf (calculateMA 20 close) (calculateSTD 20 (calculateMA 20 close) close)).getD i none = none)
    ∧ (close.length < 20 →
      (∀ x ∈ calculateMA 20 close, x = none)
        ∧ (∀ x ∈ bollUpOf (calculateMA 20 close) (calculateSTD 20 (calculateMA 20 close) close), x = none)
        ∧ (∀ x ∈ bollDnOf (calculateMA 20 close) (calculateSTD 20 (calculateMA 20 close) close), x = none)) := by
  have hlen : (calculateMA 20 close).length = close.length := calculateMA_length _ _
  refine ⟨fun i hi h19 => ?_, fun i hi hlt => ?_, fun hshort => ?_⟩
  · have hma := calculateMA_getD_of_ge close (by norm_num) hi (by omega : 20 - 1 ≤ i)
    have hstd := calculateSTD20_getD close hi h19
    constructor
    · rw [bollUpOf, getD_range_map _ _ (by rw [hlen]; exact hi), hma, hstd]
    · rw [bollDnOf, getD_range_map _ _ (by rw [hlen]; exact hi), hma, hstd]
  · have hma := calculateMA20_getD_of_lt close hi hlt
    refine ⟨hma, ?_, ?_⟩
    · rw [bollUpOf, getD_range_map _ _ (by rw [hlen]; exact hi), hma]
    · rw [bollDnOf, getD_range_map _ _ (by rw [hlen]; exact hi), hma]
  · have hnone : ∀ i, i < close.length → (calculateMA 20 close).getD i none = none :=
      fun i hi => calculateMA20_getD_of_lt close hi (by omega)
    refine ⟨?_, ?_, ?_⟩
    · intro x hx
      rw [calculateMA] at hx
      simp only [List.mem_map, List.mem_range] at hx
      obtain ⟨idx, hidx, rfl⟩ := hx
      rw [if_pos (by omega : idx < 20 - 1)]
    · intro x hx
      rw [bollUpOf] at hx
      simp only [List.mem_map, List.mem_range, hlen] at hx
      obtain ⟨idx, hidx, rfl⟩ := hx
      rw [hnone idx hidx]
    · intro x hx
      rw [bollDnOf] at hx
      simp only [List.mem_map, List.mem_range, hlen] at hx
      obtain ⟨idx, hidx, rfl⟩ := hx
      rw [hnone idx hidx]

/-- C3, witness for `c3_bollinger_band`: on twenty constant closes `1` the
band at index 19 collapses onto the mean (`sqrt 0 = 0`), and at index 0
everything is null. -/
theorem c3_bollinger_band_witness :
    (bollUpOf (calculateMA 20 (List.replicate 20 (1 : ℝ)))
        (calculateSTD 20 (calculateMA 20 (List.replicate 20 (1 : ℝ)))
          (List.replicate 20 (1 : ℝ)))).getD 19 none = some 1
    ∧ (bollUpOf (calculateMA 20 (List.replicate 20 (1 : ℝ)))
        (calculateSTD 20 (calculateMA 20 (List.replicate 20 (1 : ℝ)))
          (List.replicate 20 (1 : ℝ)))).getD 0 none = none := by
  have hmean : windowMean 20 (List.replicate 20 (1 : ℝ)) 19 = 1 := by
    have hterm : ∀ j ∈ Finset.range 20,
        (List.replicate 20 (1 : ℝ)).getD (19 + 1 - 20 + j) 0 = 1 := by
      intro j hj
      rw [Finset.mem_range] at hj
      rw [List.getD_eq_getElem _ _ (by simp only [List.length_replicate]; omega)]
      rw [List.getElem_replicate]
    rw [windowMean, Finset.sum_congr rfl hterm]
    norm_num
  have hvar : windowVar20 (List.replicate 20 (1 : ℝ)) 19 = 0 := by
    have hterm : ∀ j ∈ Finset.range 20,
        ((List.replicate 20 (1 : ℝ)).getD (19 - 19 + j) 0 - 1) ^ 2 = 0 := by
      intro j hj
      rw [Finset.mem_range] at hj
      rw [List.getD_eq_getElem _ _ (by simp only [List.length_replicate]; omega)]
      rw [List.getElem_replicate]
      norm_num
    rw [windowVar20, hmean, Finset.sum_congr rfl hterm]
    norm_num
  constructor
  · have h := ((c3_bollinger_band (List.replicate 20 (1 : ℝ))).1 19 (by simp) (by omega)).1
    rw [h, hmean, hvar, Real.sqrt_zero]
    norm_num
  · exact ((c3_bollinger_band (List.replicate 20 (1 : ℝ))).2.1 0 (by simp) (by omega)).2.1

/-- C4, counterexample.  On the empty bar sequence `processedData` yields
the absent result (`null` in the source), not an empty series as the claim
states. -/
theorem c4_claim_counterexample : processedData [] = none := rfl

/-- C4, amended.  `processedData` yields the absent result exactly on the
empty input (no error, no empty series); every non-empty input yields a
present series record. -/
theorem c4_amended_empty_absent (data : List PriceBar) :
    processedData data = none ↔ data = [] := by
  by_cases hd : data = []
  · subst hd
    simp [processedData]
  · simp [processedData, List.length_eq_zero, hd]

/-- C4, witness for `c4_amended_empty_absent`: a one-bar input yields a
present result. -/
theorem c4_amended_witness :
    processedData [⟨"d", 1, 1, 1, 1, 1⟩] ≠ none :=
  fun hn => List.cons_ne_nil _ _ ((c4_amended_empty_absent _).mp hn)
